import Mathlib

/-!
Shallow embedding of libdill's handle table (`src/handle.c`) and proofs about
its operations `hmake`, `hdup`, `hquery` and `hclose`.

Modelling conventions:
* C pointers are modelled as natural numbers, `0` standing for `NULL`.
* Each `struct hvfs` (capability table) is identified by a nonzero number;
  its mutable `refcount` field lives in the state (`HState.ref`), while its
  immutable function pointers live in a static `World` (`hasQuery`,
  `hasClose` model the non-nullness checks of `vfs->query` / `vfs->close`,
  and `Q` models the behaviour of `vfs->query`).
* The global variables `dill_handles` / `dill_nhandles` / `dill_unused` are
  the fields `handles` (a list of slots; `dill_nhandles` is its length) and
  `unused` of `HState`.
* Calls into external objects are recorded in logs: `closedLog` records each
  invocation of `vfs->close` (together with the no-blocking flag in force at
  the moment of the call) and `queryLog` records each invocation of
  `vfs->query`.  The bodies of those callbacks are outside this module.
* C `int` values that can be negative (`next`, `dill_unused`, handles,
  refcounts) are `Int`.
-/

namespace HandleTable

/-- Error codes (errno values) produced by the handle-table operations. -/
inductive Err where
  | EBADF
  | EINVAL
  | ECANCELED
  | ENOMEM
deriving Repr, DecidableEq

/-- One entry of the handle table, mirroring `struct dill_handle`:
a capability-table pointer `vfs`, the `next` field (`-1` end of free list,
`-2` slot in use, otherwise index of the next free slot), and the one-entry
query cache `type` / `ptr` (`0` = `NULL`). -/
structure Slot where
  vfs : Nat
  next : Int
  type : Nat
  ptr : Nat
deriving Repr, DecidableEq

instance : Inhabited Slot := ⟨⟨0, 0, 0, 0⟩⟩

/-- Static part of the environment: which capability tables have non-null
`query` and `close` function pointers, and what their `query` implementation
returns (`0` = `NULL` = capability not supported). -/
structure World where
  hasQuery : Nat → Bool
  hasClose : Nat → Bool
  Q : Nat → Nat → Nat

/-- Mutable state: the handle table's globals plus the per-capability-table
`refcount` fields, the scheduler's no-blocking flag, and the logs of
callbacks into external objects. -/
structure HState where
  handles : List Slot
  unused : Int
  ref : Nat → Int
  noBlocking : Bool
  closedLog : List (Nat × Bool)
  queryLog : List (Nat × Nat)

/-- Read slot `i` of the table (reads are always in range along the paths the
C code executes; the default is irrelevant there). -/
def slotAt (s : HState) (i : Nat) : Slot :=
  s.handles.getD i default

/-- The `CHECKHANDLE` condition of `handle.c`:
`(h) < 0 || (h) >= dill_nhandles || dill_handles[(h)].next != -2`. -/
def badCheck (s : HState) (h : Int) : Prop :=
  h < 0 ∨ (s.handles.length : Int) ≤ h ∨ (slotAt s h.toNat).next ≠ -2

instance (s : HState) (h : Int) : Decidable (badCheck s h) := by
  unfold badCheck; exact inferInstance

/-- Modelled from the spec: `dill_no_blocking2` lives in `cr.c`, which is not
part of the sources; the spec describes it as
`set_blocking_disallowed(bool) -> previous_value`, a non-suspending toggle of
the scheduler's no-blocking flag that returns the previous value. -/
def dill_no_blocking2 (v : Bool) (s : HState) : Bool × HState :=
  (s.noBlocking, { s with noBlocking := v })

/-- Modelled from the spec: `dill_canblock` lives in `cr.c`, which is not part
of the sources; the spec describes it as the non-suspending
`may_create_resources()` check that fails (`ECANCELED`, ShuttingDown) exactly
when blocking/new-resource operations are currently disallowed. -/
def dill_canblock (s : HState) : Except Err Unit :=
  if s.noBlocking then .error .ECANCELED else .ok ()

/-- A slot freshly created by the growth loop of `hmake`: slot `i` gets
`next = i+1`, the last slot gets `next = -1`.  (`realloc` leaves the other
fields of the new slots uninitialized; they are never read while the slot is
free, and we model them as `0`.) -/
def freshSlot (sz i : Nat) : Slot :=
  { vfs := 0, next := if i = sz - 1 then -1 else ((i : Int) + 1), type := 0, ptr := 0 }

/-- The array after the growth step of `hmake`: the old slots are preserved
(`realloc` copies them) and the slots from `old.length` to `sz - 1` are
threaded into a chain by the loop
`for(i = dill_nhandles; i != sz - 1; ++i) hndls[i].next = i + 1;`
followed by `hndls[sz - 1].next = -1;`. -/
def growSlots (old : List Slot) (sz : Nat) : List Slot :=
  old ++ (List.range (sz - old.length)).map (fun j => freshSlot sz (old.length + j))

/-- Embedding of `hmake`.  `memOk` models whether the `realloc` call (only
reached when the free list is empty) succeeds.  Mirrors the C code:
check `vfs` and its function pointers (`EINVAL`), check `dill_canblock`
(`ECANCELED`), grow the array if `dill_unused == -1` (doubling, first size
256; `ENOMEM` on allocation failure), then pop the head of the free list,
set the capability table's refcount to 1 and initialize the slot. -/
def hmake (w : World) (vfs : Nat) (memOk : Bool) (s : HState) :
    Except Err Nat × HState :=
  if vfs = 0 ∨ ¬ w.hasQuery vfs ∨ ¬ w.hasClose vfs then (.error .EINVAL, s)
  else if s.noBlocking then (.error .ECANCELED, s)
  else
    let grown : Except Err HState :=
      if s.unused = -1 then
        let n := s.handles.length
        let sz := if n ≠ 0 then n * 2 else 256
        if ¬ memOk then .error .ENOMEM
        else .ok { s with handles := growSlots s.handles sz, unused := (n : Int) }
      else .ok s
    match grown with
    | .error e => (.error e, s)
    | .ok s1 =>
      let h := s1.unused.toNat
      let slot := slotAt s1 h
      (.ok h,
        { s1 with
          unused := slot.next,
          ref := fun v => if v = vfs then 1 else s1.ref v,
          handles := s1.handles.set h { vfs := vfs, next := -2, type := 0, ptr := 0 } })

/-- Embedding of `hdup`: check the handle, save the capability table's
refcount, allocate a fresh slot for the same capability table via `hmake`
(which resets the refcount to 1), then write back `refcount + 1`.
(The C code performs that last write through the `hndl` pointer captured
before the `hmake` call; `realloc` preserves the slot's contents, so the
value read is the `vfs` captured here.) -/
def hdup (w : World) (h : Int) (memOk : Bool) (s : HState) :
    Except Err Nat × HState :=
  if badCheck s h then (.error .EBADF, s)
  else
    let hndl := slotAt s h.toNat
    let refcount := s.ref hndl.vfs
    match hmake w hndl.vfs memOk s with
    | (.error e, s1) => (.error e, s1)
    | (.ok res, s1) =>
      (.ok res,
        { s1 with ref := fun v => if v = hndl.vfs then refcount + 1 else s1.ref v })

/-- Embedding of `hquery`.  Result `.error .EBADF` models returning `NULL`
with `errno = EBADF`; `.ok none` models returning `NULL` after the virtual
query found no match; `.ok (some p)` models returning pointer `p`.  The cache
is consulted first (`hndl->ptr != NULL && hndl->type == type`); on a miss the
virtual call is performed (recorded in `queryLog`) and a successful result is
written back into the cache. -/
def hquery (w : World) (h : Int) (ty : Nat) (s : HState) :
    Except Err (Option Nat) × HState :=
  if badCheck s h then (.error .EBADF, s)
  else
    let hndl := slotAt s h.toNat
    if hndl.ptr ≠ 0 ∧ hndl.type = ty then (.ok (some hndl.ptr), s)
    else
      let ptr := w.Q hndl.vfs ty
      let s1 := { s with queryLog := s.queryLog ++ [(hndl.vfs, ty)] }
      if ptr = 0 then (.ok none, s1)
      else
        (.ok (some ptr),
          { s1 with handles := s1.handles.set h.toNat { hndl with type := ty, ptr := ptr } })

/-- Embedding of `hclose`: check the handle; if the capability table's
refcount is greater than 1 just decrement it and return; otherwise set the
no-blocking flag (`dill_no_blocking2(1)`), invoke `vfs->close` (recorded in
`closedLog` together with the flag in force during the call), restore the
flag to its previous value, invalidate the cache (`hndl->ptr = NULL`) and
push the slot onto the free list. -/
def hclose (h : Int) (s : HState) : Except Err Unit × HState :=
  if badCheck s h then (.error .EBADF, s)
  else
    let hndl := slotAt s h.toNat
    if s.ref hndl.vfs > 1 then
      (.ok (), { s with ref := fun v => if v = hndl.vfs then s.ref hndl.vfs - 1 else s.ref v })
    else
      let p1 := dill_no_blocking2 true s
      let old := p1.1
      let s1 := p1.2
      let s2 := { s1 with closedLog := s1.closedLog ++ [(hndl.vfs, s1.noBlocking)] }
      let p2 := dill_no_blocking2 old s2
      let s3 := p2.2
      (.ok (),
        { s3 with
          unused := h,
          handles := s3.handles.set h.toNat { hndl with ptr := 0, next := s3.unused } })

/-- Run `hclose` on each handle of the list in order, collecting the results
and threading the state. -/
def closeSeq (hs : List Int) (s : HState) : List (Except Err Unit) × HState :=
  match hs with
  | [] => ([], s)
  | h :: t =>
    let r := hclose h s
    let rest := closeSeq t r.2
    (r.1 :: rest.1, rest.2)

/-- Number of slots currently in use (`next = -2`) whose `vfs` points at the
given capability table: the number of live handles aliasing it. -/
def aliasCount (s : HState) (v : Nat) : Nat :=
  (s.handles.filter (fun sl => sl.next = -2 ∧ sl.vfs = v)).length

/-- The empty initial state (`dill_handles = NULL`, `dill_nhandles = 0`,
`dill_unused = -1`). -/
def initState : HState :=
  { handles := [], unused := -1, ref := fun _ => 0, noBlocking := false,
    closedLog := [], queryLog := [] }

/-- A concrete world with a single well-formed capability table, numbered 1,
whose query implementation supports exactly capability type 7 (returning
pointer 42). -/
def wEx : World :=
  { hasQuery := fun v => v = 1, hasClose := fun v => v = 1,
    Q := fun v t => if v = 1 ∧ t = 7 then 42 else 0 }

/-- Size chosen by the growth step: `dill_nhandles ? dill_nhandles * 2 : 256`. -/
def grownSize (n : Nat) : Nat := if n ≠ 0 then n * 2 else 256

/-- Table invariant fragment used below: the head of the free list is either
empty or a free in-range slot. -/
def freeHeadOk (s : HState) : Prop :=
  s.unused = -1 ∨
    (0 ≤ s.unused ∧ s.unused < (s.handles.length : Int) ∧
      (slotAt s s.unused.toNat).next ≠ -2)

instance (s : HState) : Decidable (freeHeadOk s) := by
  unfold freeHeadOk; exact inferInstance

/-- A one-slot state used as a concrete instance for witnesses: slot 0 is in
use by capability table 1, whose reference count is 1; the free list is
empty and blocking is allowed. -/
def sW : HState :=
  { handles := [{ vfs := 1, next := -2, type := 0, ptr := 0 }],
    unused := -1, ref := fun v => if v = 1 then 1 else 0,
    noBlocking := false, closedLog := [], queryLog := [] }

/-- A two-slot state used as a concrete instance for witnesses: slots 0 and 1
are in use by capability table 1, whose reference count is 2. -/
def sPair : HState :=
  { handles := [{ vfs := 1, next := -2, type := 0, ptr := 0 },
                { vfs := 1, next := -2, type := 0, ptr := 0 }],
    unused := -1, ref := fun v => if v = 1 then 2 else 0,
    noBlocking := false, closedLog := [], queryLog := [] }

/-- State reached from the empty initial state by `hmake wEx 1`: handle 0 is
returned and the table has grown to 256 slots. -/
def sA : HState := (hmake wEx 1 true initState).2

/-- State reached from `sA` by `hdup wEx 0`: handle 1 is returned; handles 0
and 1 now share capability table 1, whose reference count is 2. -/
def sB : HState := (hdup wEx 0 true sA).2

/-- State reached from `sB` by `hclose 0`: the close succeeded with shared
reference count 2. -/
def sC : HState := (hclose 0 sB).2

/-! Helper lemmas. -/

lemma not_badCheck_iff (s : HState) (h : Int) :
    ¬ badCheck s h ↔
      0 ≤ h ∧ h < (s.handles.length : Int) ∧ (slotAt s h.toNat).next = -2 := by
  unfold badCheck
  push_neg
  simp [Int.not_lt]

lemma valid_facts (s : HState) (h : Int) (hv : ¬ badCheck s h) :
    h.toNat < s.handles.length ∧ ((h.toNat : Int) = h) ∧
      (slotAt s h.toNat).next = -2 := by
  rw [not_badCheck_iff] at hv
  refine ⟨?_, ?_, hv.2.2⟩ <;> omega

lemma hclose_eq_dec (s : HState) (h : Int) (hv : ¬ badCheck s h)
    (hr : s.ref (slotAt s h.toNat).vfs > 1) :
    hclose h s =
      (.ok (),
       { s with ref := fun v => if v = (slotAt s h.toNat).vfs
                  then s.ref (slotAt s h.toNat).vfs - 1 else s.ref v }) := by
  unfold hclose
  rw [if_neg hv, if_pos hr]

lemma hclose_eq_last (s : HState) (h : Int) (hv : ¬ badCheck s h)
    (hr : ¬ s.ref (slotAt s h.toNat).vfs > 1) :
    hclose h s =
      (.ok (),
       { s with
         closedLog := s.closedLog ++ [((slotAt s h.toNat).vfs, true)],
         unused := h,
         handles := s.handles.set h.toNat
           { slotAt s h.toNat with ptr := 0, next := s.unused } }) := by
  unfold hclose dill_no_blocking2
  rw [if_neg hv, if_neg hr]

lemma hclose_ok (s : HState) (h : Int) (hv : ¬ badCheck s h) :
    (hclose h s).1 = .ok () := by
  by_cases hr : s.ref (slotAt s h.toNat).vfs > 1
  · rw [hclose_eq_dec s h hv hr]
  · rw [hclose_eq_last s h hv hr]

lemma hmake_eq_nogrow (w : World) (vfs : Nat) (memOk : Bool) (s : HState)
    (hv : ¬ (vfs = 0 ∨ ¬ w.hasQuery vfs ∨ ¬ w.hasClose vfs))
    (hnb : s.noBlocking = false) (hu : s.unused ≠ -1) :
    hmake w vfs memOk s =
      (.ok s.unused.toNat,
       { s with
         unused := (slotAt s s.unused.toNat).next,
         ref := fun v => if v = vfs then 1 else s.ref v,
         handles := s.handles.set s.unused.toNat
           { vfs := vfs, next := -2, type := 0, ptr := 0 } }) := by
  have hnb' : ¬ (s.noBlocking = true) := by simp [hnb]
  unfold hmake
  rw [if_neg hv, if_neg hnb']
  simp only [if_neg hu]

lemma hmake_error_state (w : World) (vfs : Nat) (memOk : Bool) (s : HState) :
    ∀ e : Err, (hmake w vfs memOk s).1 = .error e →
      (hmake w vfs memOk s).2 = s := by
  unfold hmake
  split
  · intro e _; rfl
  · split
    · intro e _; rfl
    · split
      · split
        · intro e _; rfl
        · intro e he; simp at he
      · intro e he; simp at he

lemma grownSize_gt (n : Nat) : n < grownSize n := by
  unfold grownSize; split <;> omega

lemma growSlots_length (old : List Slot) (sz : Nat) (h : old.length ≤ sz) :
    (growSlots old sz).length = sz := by
  simp [growSlots]; omega

lemma growSlots_getD_lt (old : List Slot) (sz i : Nat) (h : i < old.length) :
    (growSlots old sz).getD i default = old.getD i default := by
  simp [growSlots, List.getD, List.getElem?_append, h]

lemma growSlots_getD_add (old : List Slot) (sz j : Nat)
    (h : j < sz - old.length) :
    (growSlots old sz).getD (old.length + j) default =
      freshSlot sz (old.length + j) := by
  simp only [growSlots, List.getD, List.get?_eq_getElem?,
    List.getElem?_append_right (Nat.le_add_right old.length j),
    Nat.add_sub_cancel_left, List.getElem?_map, List.getElem?_range, h,
    if_pos]
  rfl

lemma growSlots_getD_ge (old : List Slot) (sz i : Nat)
    (h1 : old.length ≤ i) (h2 : i < sz) :
    (growSlots old sz).getD i default = freshSlot sz i := by
  have hi : i = old.length + (i - old.length) := by omega
  rw [hi]
  exact growSlots_getD_add old sz _ (by omega)

lemma hmake_eq_grow (w : World) (vfs : Nat) (s : HState)
    (hv : ¬ (vfs = 0 ∨ ¬ w.hasQuery vfs ∨ ¬ w.hasClose vfs))
    (hnb : s.noBlocking = false) (hu : s.unused = -1) :
    hmake w vfs true s =
      (.ok s.handles.length,
       { s with
         unused := (freshSlot (grownSize s.handles.length) s.handles.length).next,
         ref := fun v => if v = vfs then 1 else s.ref v,
         handles := (growSlots s.handles (grownSize s.handles.length)).set
           s.handles.length { vfs := vfs, next := -2, type := 0, ptr := 0 } }) := by
  have hnb' : ¬ (s.noBlocking = true) := by simp [hnb]
  have hkey : slotAt { s with
        handles := growSlots s.handles (grownSize s.handles.length),
        unused := (s.handles.length : Int) } ((s.handles.length : Int)).toNat =
      freshSlot (grownSize s.handles.length) s.handles.length := by
    show (growSlots s.handles (grownSize s.handles.length)).getD
        ((s.handles.length : Int)).toNat default = _
    rw [Int.toNat_natCast]
    exact growSlots_getD_ge _ _ _ le_rfl (grownSize_gt _)
  unfold hmake
  rw [if_neg hv, if_neg hnb']
  simp only [if_pos hu, grownSize, not_true, if_false, Int.toNat_natCast] at hkey ⊢
  rw [hkey]

lemma getD_eq_getElem? (l : List Slot) (i : Nat) :
    l.getD i default = (l[i]?).getD default := by
  rw [List.getD, List.get?_eq_getElem?]

lemma hmake_grow_spec (w : World) (vfs : Nat) (s : HState) (n sz : Nat)
    (hv : ¬ (vfs = 0 ∨ ¬ w.hasQuery vfs ∨ ¬ w.hasClose vfs))
    (hnb : s.noBlocking = false) (hu : s.unused = -1)
    (hn : n = s.handles.length) (hsz : sz = grownSize n) :
    (hmake w vfs true s).1 = .ok n ∧
    (hmake w vfs true s).2.handles.length = sz ∧
    (∀ i, i < n → slotAt (hmake w vfs true s).2 i = slotAt s i) ∧
    slotAt (hmake w vfs true s).2 n =
      { vfs := vfs, next := -2, type := 0, ptr := 0 } ∧
    (∀ i, n < i → i < sz - 1 →
      (slotAt (hmake w vfs true s).2 i).next = (i : Int) + 1) ∧
    (n < sz - 1 → (slotAt (hmake w vfs true s).2 (sz - 1)).next = -1) ∧
    (hmake w vfs true s).2.unused =
      (if n = sz - 1 then -1 else (n : Int) + 1) ∧
    (hmake w vfs true s).2.ref = (fun v => if v = vfs then 1 else s.ref v) ∧
    (hmake w vfs true s).2.noBlocking = s.noBlocking ∧
    (hmake w vfs true s).2.closedLog = s.closedLog ∧
    (hmake w vfs true s).2.queryLog = s.queryLog := by
  subst hn hsz
  rw [hmake_eq_grow w vfs s hv hnb hu]
  have hnsz : s.handles.length < grownSize s.handles.length :=
    grownSize_gt s.handles.length
  have hlen : (growSlots s.handles (grownSize s.handles.length)).length =
      grownSize s.handles.length :=
    growSlots_length _ _ (le_of_lt hnsz)
  refine ⟨rfl, ?_, ?_, ?_, ?_, ?_, rfl, rfl, rfl, rfl, rfl⟩
  · simp [hlen]
  · intro i hi
    show (_ : List Slot).getD i default = s.handles.getD i default
    rw [List.getD, List.get?_eq_getElem?,
      List.getElem?_set_ne (Nat.ne_of_gt hi), ← getD_eq_getElem?]
    exact growSlots_getD_lt s.handles _ i hi
  · show (_ : List Slot).getD s.handles.length default = _
    rw [List.getD, List.get?_eq_getElem?, List.getElem?_set_self]
    · rfl
    · omega
  · intro i h1 h2
    have hne : s.handles.length ≠ i := Nat.ne_of_lt h1
    show ((_ : List Slot).getD i default).next = _
    rw [List.getD, List.get?_eq_getElem?, List.getElem?_set_ne hne,
      ← getD_eq_getElem?,
      growSlots_getD_ge s.handles _ i (by omega) (by omega)]
    simp [freshSlot]
    omega
  · intro h1
    have hne : s.handles.length ≠ grownSize s.handles.length - 1 :=
      Nat.ne_of_lt h1
    show ((_ : List Slot).getD _ default).next = _
    rw [List.getD, List.get?_eq_getElem?, List.getElem?_set_ne hne,
      ← getD_eq_getElem?,
      growSlots_getD_ge s.handles _ _ (by omega) (by omega)]
    simp [freshSlot]

lemma hmake_spec (w : World) (vfs : Nat) (s : HState)
    (hv : ¬ (vfs = 0 ∨ ¬ w.hasQuery vfs ∨ ¬ w.hasClose vfs))
    (hnb : s.noBlocking = false) (hfree : freeHeadOk s) :
    ∃ h2 : Nat,
      (hmake w vfs true s).1 = .ok h2 ∧
      s.handles.length ≤ (hmake w vfs true s).2.handles.length ∧
      h2 < (hmake w vfs true s).2.handles.length ∧
      slotAt (hmake w vfs true s).2 h2 =
        { vfs := vfs, next := -2, type := 0, ptr := 0 } ∧
      (∀ i, i < s.handles.length → i ≠ h2 →
        slotAt (hmake w vfs true s).2 i = slotAt s i) ∧
      (s.handles.length ≤ h2 ∨ (slotAt s h2).next ≠ -2) ∧
      (hmake w vfs true s).2.ref =
        (fun v => if v = vfs then 1 else s.ref v) ∧
      (hmake w vfs true s).2.noBlocking = s.noBlocking ∧
      (hmake w vfs true s).2.closedLog = s.closedLog ∧
      (hmake w vfs true s).2.queryLog = s.queryLog := by
  by_cases hu : s.unused = -1
  · obtain ⟨h1, h2, h3, h4, _, _, _, h8, h9, h10, h11⟩ :=
      hmake_grow_spec w vfs s s.handles.length (grownSize s.handles.length)
        hv hnb hu rfl rfl
    refine ⟨s.handles.length, h1, ?_, ?_, h4, ?_, Or.inl le_rfl, h8, h9, h10, h11⟩
    · rw [h2]; exact le_of_lt (grownSize_gt _)
    · rw [h2]; exact grownSize_gt _
    · intro i hi _; exact h3 i hi
  · obtain ⟨hge, hlt, hne2⟩ : 0 ≤ s.unused ∧
        s.unused < (s.handles.length : Int) ∧
        (slotAt s s.unused.toNat).next ≠ -2 := by
      rcases hfree with h | h
      · exact absurd h hu
      · exact h
    rw [hmake_eq_nogrow w vfs true s hv hnb hu]
    have hlt' : s.unused.toNat < s.handles.length := by omega
    refine ⟨s.unused.toNat, rfl, ?_, ?_, ?_, ?_, Or.inr hne2, rfl, rfl, rfl, rfl⟩
    · simp
    · simpa using hlt'
    · show (_ : List Slot).getD _ default = _
      rw [getD_eq_getElem?, List.getElem?_set_self (by simpa using hlt')]
      rfl
    · intro i _ hne
      show (_ : List Slot).getD i default = s.handles.getD i default
      rw [getD_eq_getElem?, List.getElem?_set_ne (Ne.symm hne), ← getD_eq_getElem?]

lemma hdup_spec (w : World) (s : HState) (h : Int) (hv : ¬ badCheck s h)
    (hwf : ¬ ((slotAt s h.toNat).vfs = 0 ∨
      ¬ w.hasQuery (slotAt s h.toNat).vfs ∨ ¬ w.hasClose (slotAt s h.toNat).vfs))
    (hnb : s.noBlocking = false) (hfree : freeHeadOk s) :
    ∃ h2 : Nat,
      (hdup w h true s).1 = .ok h2 ∧
      (h2 : Int) ≠ h ∧
      slotAt (hdup w h true s).2 h2 =
        { vfs := (slotAt s h.toNat).vfs, next := -2, type := 0, ptr := 0 } ∧
      (∀ i, i < s.handles.length → i ≠ h2 →
        slotAt (hdup w h true s).2 i = slotAt s i) ∧
      s.handles.length ≤ (hdup w h true s).2.handles.length ∧
      h2 < (hdup w h true s).2.handles.length ∧
      (hdup w h true s).2.ref =
        (fun v => if v = (slotAt s h.toNat).vfs
          then s.ref (slotAt s h.toNat).vfs + 1 else s.ref v) ∧
      (hdup w h true s).2.noBlocking = s.noBlocking ∧
      (hdup w h true s).2.closedLog = s.closedLog ∧
      (hdup w h true s).2.queryLog = s.queryLog := by
  obtain ⟨hlt, htn, hn2⟩ := valid_facts s h hv
  obtain ⟨h2, e1, e2, e3, e4, e5, e6, e7, e8, e9, e10⟩ :=
    hmake_spec w (slotAt s h.toNat).vfs s hwf hnb hfree
  have hm : hmake w (slotAt s h.toNat).vfs true s =
      (.ok h2, (hmake w (slotAt s h.toNat).vfs true s).2) := by
    rw [← e1]
  have hne : (h2 : Int) ≠ h := by
    rcases e6 with hge | hfr
    · intro hc; omega
    · intro hc
      have : h2 = h.toNat := by omega
      rw [this] at hfr; exact hfr hn2
  rcases hmk : hmake w (slotAt s h.toNat).vfs true s with ⟨r, s1⟩
  rw [hmk] at e1 e2 e3 e4 e5 e7 e8 e9 e10
  dsimp only at e1 e2 e3 e4 e5 e7 e8 e9 e10
  subst e1
  have hgoal : hdup w h true s =
      (.ok h2,
       { s1 with ref := fun v => if v = (slotAt s h.toNat).vfs
           then s.ref (slotAt s h.toNat).vfs + 1 else s1.ref v }) := by
    simp only [hdup, if_neg hv, hmk]
  refine ⟨h2, ?_, hne, ?_, ?_, ?_, ?_, ?_, ?_, ?_, ?_⟩ <;> rw [hgoal]
  · exact e4
  · intro i hi hih2; exact e5 i hi hih2
  · exact e2
  · exact e3
  · funext v
    show (if v = (slotAt s h.toNat).vfs
        then s.ref (slotAt s h.toNat).vfs + 1 else s1.ref v) = _
    rw [e7]
    by_cases hva : v = (slotAt s h.toNat).vfs <;> simp [hva]
  · exact e8
  · exact e9
  · exact e10

lemma hquery_not_error (w : World) (s : HState) (h : Int) (ty : Nat)
    (hv : ¬ badCheck s h) : ∀ e : Err, (hquery w h ty s).1 ≠ .error e := by
  intro e
  simp only [hquery, if_neg hv]
  split
  · simp
  · split <;> simp

/-- C4: for a valid handle whose capability table's reference count is 1,
`hclose` sets the scheduler's no-blocking flag before invoking the object's
`close()` (the logged close event carries flag value `true`), the close call
succeeds, and afterwards the flag is restored to exactly the value it had
before `hclose` was invoked. -/
theorem close_fences_and_restores_flag (s : HState) (h : Int)
    (hv : ¬ badCheck s h) (hr : s.ref (slotAt s h.toNat).vfs = 1) :
    (hclose h s).1 = .ok () ∧
    (hclose h s).2.closedLog = s.closedLog ++ [((slotAt s h.toNat).vfs, true)] ∧
    (hclose h s).2.noBlocking = s.noBlocking := by
  have hr' : ¬ s.ref (slotAt s h.toNat).vfs > 1 := by omega
  rw [hclose_eq_last s h hv hr']
  exact ⟨rfl, rfl, rfl⟩

/-- Witness for C4 at the concrete state `sW` and handle 0. -/
theorem close_fences_and_restores_flag_witness :
    ¬ badCheck sW 0 ∧ sW.ref (slotAt sW 0).vfs = 1 ∧
    ((hclose 0 sW).1 = .ok () ∧
     (hclose 0 sW).2.closedLog = sW.closedLog ++ [((slotAt sW 0).vfs, true)] ∧
     (hclose 0 sW).2.noBlocking = sW.noBlocking) :=
  ⟨by decide, rfl, close_fences_and_restores_flag sW 0 (by decide) rfl⟩

/-- C9: for every integer `h` (negative values and values at or beyond the
current capacity included), `hquery`, `hdup` and `hclose` fail with `EBADF`
and leave the state untouched whenever the `CHECKHANDLE` bounds-and-occupancy
condition holds; and a handle passes the check exactly when it is within the
current bounds and its slot is in use. -/
theorem checkhandle_guards (w : World) (memOk : Bool) (ty : Nat)
    (s : HState) (h : Int) :
    (badCheck s h →
      (hquery w h ty s).1 = .error .EBADF ∧ (hquery w h ty s).2 = s ∧
      (hdup w h memOk s).1 = .error .EBADF ∧ (hdup w h memOk s).2 = s ∧
      (hclose h s).1 = .error .EBADF ∧ (hclose h s).2 = s) ∧
    (¬ badCheck s h ↔
      0 ≤ h ∧ h < (s.handles.length : Int) ∧ (slotAt s h.toNat).next = -2) := by
  constructor
  · intro hb
    refine ⟨?_, ?_, ?_, ?_, ?_, ?_⟩ <;> simp [hquery, hdup, hclose, if_pos hb]
  · exact not_badCheck_iff s h

/-- Witness for C9 at the out-of-bounds handle `-1` and the stale handle `5`
in the concrete state `sW`. -/
theorem checkhandle_guards_witness :
    badCheck sW (-1) ∧ badCheck sW 5 ∧
    (hquery wEx (-1) 0 sW).1 = .error .EBADF ∧
    (hdup wEx (-1) true sW).1 = .error .EBADF ∧
    (hclose (-1) sW).1 = .error .EBADF ∧
    (hclose 5 sW).2 = sW :=
  ⟨by decide, by decide,
   ((checkhandle_guards wEx true 0 sW (-1)).1 (by decide)).1,
   ((checkhandle_guards wEx true 0 sW (-1)).1 (by decide)).2.2.1,
   ((checkhandle_guards wEx true 0 sW (-1)).1 (by decide)).2.2.2.2.1,
   ((checkhandle_guards wEx true 0 sW 5).1 (by decide)).2.2.2.2.2⟩

/-- C6: for a valid handle, if `hquery` returns a pointer `p`, an immediately
repeated `hquery` with the same capability type returns the identical pointer
and changes nothing at all (in particular the underlying `query` is not
invoked again: the whole state, `queryLog` included, is returned unchanged);
and if `hquery` reports no match (`.ok none`), the slot — its cache
included — is left unchanged. -/
theorem query_cache_hit_second_time (w : World) (s : HState) (h : Int)
    (ty : Nat) (hv : ¬ badCheck s h) :
    (∀ p, (hquery w h ty s).1 = .ok (some p) →
      hquery w h ty (hquery w h ty s).2 = (.ok (some p), (hquery w h ty s).2)) ∧
    ((hquery w h ty s).1 = .ok none →
      slotAt (hquery w h ty s).2 h.toNat = slotAt s h.toNat) := by
  obtain ⟨hlt, htn, hn2⟩ := valid_facts s h hv
  by_cases hcache : (slotAt s h.toNat).ptr ≠ 0 ∧ (slotAt s h.toNat).type = ty
  · have heq : hquery w h ty s = (.ok (some (slotAt s h.toNat).ptr), s) := by
      simp only [hquery, if_neg hv, if_pos hcache]
    rw [heq]
    constructor
    · intro p hp
      have hp' : (slotAt s h.toNat).ptr = p := by
        simpa using hp
      rw [← hp', heq]
    · intro hnone; simp at hnone
  · by_cases hz : w.Q (slotAt s h.toNat).vfs ty = 0
    · have heq : hquery w h ty s =
          (.ok none,
           { s with queryLog := s.queryLog ++ [((slotAt s h.toNat).vfs, ty)] }) := by
        simp only [hquery, if_neg hv, if_neg hcache, if_pos hz]
      rw [heq]
      exact ⟨fun p hp => by simp at hp, fun _ => rfl⟩
    · have heq : hquery w h ty s =
          (.ok (some (w.Q (slotAt s h.toNat).vfs ty)),
           { s with
             queryLog := s.queryLog ++ [((slotAt s h.toNat).vfs, ty)],
             handles := s.handles.set h.toNat
               { slotAt s h.toNat with
                 type := ty, ptr := w.Q (slotAt s h.toNat).vfs ty } }) := by
        simp only [hquery, if_neg hv, if_neg hcache, if_neg hz]
      rw [heq]
      constructor
      · intro p hp
        have hp' : w.Q (slotAt s h.toNat).vfs ty = p := by simpa using hp
        set s2 : HState :=
          { s with
            queryLog := s.queryLog ++ [((slotAt s h.toNat).vfs, ty)],
            handles := s.handles.set h.toNat
              { slotAt s h.toNat with
                type := ty, ptr := w.Q (slotAt s h.toNat).vfs ty } } with hs2
        have hslot2 : slotAt s2 h.toNat =
            { slotAt s h.toNat with
              type := ty, ptr := w.Q (slotAt s h.toNat).vfs ty } := by
          show (_ : List Slot).getD _ default = _
          rw [getD_eq_getElem?, List.getElem?_set_self (by simpa using hlt)]
          rfl
        have hv2 : ¬ badCheck s2 h := by
          rw [not_badCheck_iff]
          refine ⟨by omega, ?_, ?_⟩
          · show h < (s2.handles.length : Int)
            have : s2.handles.length = s.handles.length := by
              simp [hs2]
            rw [this]; omega
          · rw [hslot2]; exact hn2
        have hcache2 : (slotAt s2 h.toNat).ptr ≠ 0 ∧
            (slotAt s2 h.toNat).type = ty := by
          rw [hslot2]; exact ⟨hz, rfl⟩
        have : hquery w h ty s2 = (.ok (some (slotAt s2 h.toNat).ptr), s2) := by
          simp only [hquery, if_neg hv2, if_pos hcache2]
        rw [this, hslot2, hp']
      · intro hnone; simp at hnone

/-- Witness for C6 at the concrete state `sW`, handle 0 and capability
type 7 (the first call misses the cache and stores pointer 42; the second
returns it unchanged). -/
theorem query_cache_hit_second_time_witness :
    ¬ badCheck sW 0 ∧
    (hquery wEx 0 7 sW).1 = .ok (some 42) ∧
    hquery wEx 0 7 (hquery wEx 0 7 sW).2 =
      (.ok (some 42), (hquery wEx 0 7 sW).2) :=
  ⟨by decide, rfl,
   (query_cache_hit_second_time wEx sW 0 7 (by decide)).1 42 rfl⟩

/-- C10: for a valid handle whose capability table's reference count is
greater than 1, a successful `hclose` decrements only that reference count:
the slot array (hence the slot's `vfs`, in-use mark and cache), the free
list head, the no-blocking flag, the logs, and all other reference counts
are unchanged, the handle stays valid, and subsequent `hclose`, `hquery`
and `hdup` calls on it still succeed. -/
theorem close_refcount_gt_one_frame (w : World) (s : HState) (h : Int)
    (ty : Nat) (hv : ¬ badCheck s h)
    (hr : s.ref (slotAt s h.toNat).vfs > 1)
    (hwf : ¬ ((slotAt s h.toNat).vfs = 0 ∨
      ¬ w.hasQuery (slotAt s h.toNat).vfs ∨ ¬ w.hasClose (slotAt s h.toNat).vfs))
    (hnb : s.noBlocking = false) (hfree : freeHeadOk s) :
    (hclose h s).1 = .ok () ∧
    (hclose h s).2.handles = s.handles ∧
    (hclose h s).2.unused = s.unused ∧
    (hclose h s).2.noBlocking = s.noBlocking ∧
    (hclose h s).2.closedLog = s.closedLog ∧
    (hclose h s).2.queryLog = s.queryLog ∧
    (hclose h s).2.ref (slotAt s h.toNat).vfs =
      s.ref (slotAt s h.toNat).vfs - 1 ∧
    (∀ v, v ≠ (slotAt s h.toNat).vfs → (hclose h s).2.ref v = s.ref v) ∧
    ¬ badCheck (hclose h s).2 h ∧
    (hclose h (hclose h s).2).1 = .ok () ∧
    (∀ e : Err, (hquery w h ty (hclose h s).2).1 ≠ .error e) ∧
    (∃ h2 : Nat, (hdup w h true (hclose h s).2).1 = .ok h2) := by
  rw [hclose_eq_dec s h hv hr]
  set A := (slotAt s h.toNat).vfs with hA
  set s' : HState :=
    { s with ref := fun v => if v = A then s.ref A - 1 else s.ref v } with hs'
  have hv' : ¬ badCheck s' h := hv
  have hfree' : freeHeadOk s' := hfree
  refine ⟨rfl, rfl, rfl, rfl, rfl, rfl, by simp, ?_, hv', ?_, ?_, ?_⟩
  · intro v hvne
    show (if v = A then s.ref A - 1 else s.ref v) = s.ref v
    rw [if_neg hvne]
  · exact hclose_ok s' h hv'
  · exact hquery_not_error w s' h ty hv'
  · obtain ⟨h2, e1, _⟩ := hdup_spec w s' h hv' hwf hnb hfree'
    exact ⟨h2, e1⟩

/-- Witness for C10 at the concrete state `sPair` (two handles on capability
table 1, reference count 2) and handle 0. -/
theorem close_refcount_gt_one_frame_witness :
    ¬ badCheck sPair 0 ∧ sPair.ref (slotAt sPair 0).vfs > 1 ∧
    ((hclose 0 sPair).1 = .ok () ∧
     (hclose 0 sPair).2.handles = sPair.handles ∧
     (hclose 0 sPair).2.ref (slotAt sPair 0).vfs =
       sPair.ref (slotAt sPair 0).vfs - 1 ∧
     ¬ badCheck (hclose 0 sPair).2 0 ∧
     (hclose 0 (hclose 0 sPair).2).1 = .ok ()) := by
  have hmain := close_refcount_gt_one_frame wEx sPair 0 0 (by decide)
    (by decide) (by decide) rfl (Or.inl rfl)
  exact ⟨by decide, by decide,
    hmain.1, hmain.2.1, hmain.2.2.2.2.2.2.1, hmain.2.2.2.2.2.2.2.2.1,
    hmain.2.2.2.2.2.2.2.2.2.1⟩

/-- C7: for a valid handle `h` (on a reachable state: reference count at
least 1, well-formed capability table, free-list head intact, blocking
allowed), a successful `hdup` returns a handle `h2` distinct from `h` whose
slot shares `h`'s capability table; after `hclose h` succeeds, `hquery` on
`h2` still succeeds for every capability type the object supports. -/
theorem dup_survives_close_of_original (w : World) (s : HState) (h : Int)
    (hv : ¬ badCheck s h)
    (hwf : ¬ ((slotAt s h.toNat).vfs = 0 ∨
      ¬ w.hasQuery (slotAt s h.toNat).vfs ∨ ¬ w.hasClose (slotAt s h.toNat).vfs))
    (hnb : s.noBlocking = false) (hfree : freeHeadOk s)
    (hr1 : 1 ≤ s.ref (slotAt s h.toNat).vfs) :
    ∃ h2 : Nat,
      (hdup w h true s).1 = .ok h2 ∧
      (h2 : Int) ≠ h ∧
      (slotAt (hdup w h true s).2 h2).vfs = (slotAt s h.toNat).vfs ∧
      (hclose h (hdup w h true s).2).1 = .ok () ∧
      (∀ ty, w.Q (slotAt s h.toNat).vfs ty ≠ 0 →
        (hquery w (h2 : Int) ty (hclose h (hdup w h true s).2).2).1 =
          .ok (some (w.Q (slotAt s h.toNat).vfs ty))) := by
  obtain ⟨hlt, htn, hn2⟩ := valid_facts s h hv
  obtain ⟨h2, e1, e2, e3, e4, e5, e6, e7, e8, e9, e10⟩ :=
    hdup_spec w s h hv hwf hnb hfree
  set A := (slotAt s h.toNat).vfs with hA
  set s2 := (hdup w h true s).2 with hs2
  have hh2 : h.toNat ≠ h2 := by
    intro hc; apply e2; rw [← hc, htn]
  have hslot : slotAt s2 h.toNat = slotAt s h.toNat := e4 h.toNat hlt hh2
  have hv2 : ¬ badCheck s2 h := by
    rw [not_badCheck_iff]
    exact ⟨by omega, by omega, by rw [hslot]; exact hn2⟩
  have hA2 : (slotAt s2 h.toNat).vfs = A := by rw [hslot]
  have hr2 : s2.ref (slotAt s2 h.toNat).vfs > 1 := by
    rw [hA2, e7]; simp; omega
  have hcl := hclose_eq_dec s2 h hv2 hr2
  refine ⟨h2, e1, e2, by rw [e3], by rw [hcl], ?_⟩
  intro ty hq
  rw [hcl]
  set s3 : HState :=
    { s2 with ref := fun v => if v = (slotAt s2 h.toNat).vfs
        then s2.ref (slotAt s2 h.toNat).vfs - 1 else s2.ref v } with hs3
  have hslot3 : slotAt s3 ((h2 : Int)).toNat =
      { vfs := A, next := -2, type := 0, ptr := 0 } := by
    show slotAt s2 ((h2 : Int)).toNat = _
    rw [Int.toNat_natCast]; exact e3
  have hv3 : ¬ badCheck s3 (h2 : Int) := by
    rw [not_badCheck_iff]
    refine ⟨by omega, ?_, by rw [hslot3]⟩
    show (h2 : Int) < (s2.handles.length : Int)
    omega
  have hmiss : ¬ ((slotAt s3 ((h2 : Int)).toNat).ptr ≠ 0 ∧
      (slotAt s3 ((h2 : Int)).toNat).type = ty) := by
    rw [hslot3]; simp
  simp only [hquery, if_neg hv3, if_neg hmiss, hslot3]
  simp [hq]

/-- Witness for C7 at the concrete state `sW` (one handle on capability
table 1) and handle 0. -/
theorem dup_survives_close_of_original_witness :
    ¬ badCheck sW 0 ∧ 1 ≤ sW.ref (slotAt sW 0).vfs ∧
    (∃ h2 : Nat,
      (hdup wEx 0 true sW).1 = .ok h2 ∧
      (h2 : Int) ≠ 0 ∧
      (slotAt (hdup wEx 0 true sW).2 h2).vfs = (slotAt sW 0).vfs ∧
      (hclose 0 (hdup wEx 0 true sW).2).1 = .ok () ∧
      (∀ ty, wEx.Q (slotAt sW 0).vfs ty ≠ 0 →
        (hquery wEx (h2 : Int) ty (hclose 0 (hdup wEx 0 true sW).2).2).1 =
          .ok (some (wEx.Q (slotAt sW 0).vfs ty)))) :=
  ⟨by decide, by decide,
   dup_survives_close_of_original wEx sW 0 (by decide) (by decide) rfl
     (Or.inl rfl) (by decide)⟩

/-- C5: when the free list is empty, a successful `hmake` performs exactly
one growth event: the capacity becomes `grownSize` of the old capacity
(double it, or 256 when it was 0), every handle that was valid before is
still valid and still maps to the same capability table, the new slots
beyond the returned one are threaded consecutively into the free list, and
the new free-list head is the slot after the returned one. -/
theorem grow_doubles_and_preserves (w : World) (vfs : Nat) (s : HState)
    (hv : ¬ (vfs = 0 ∨ ¬ w.hasQuery vfs ∨ ¬ w.hasClose vfs))
    (hnb : s.noBlocking = false) (hu : s.unused = -1) :
    grownSize s.handles.length =
      (if s.handles.length ≠ 0 then s.handles.length * 2 else 256) ∧
    (hmake w vfs true s).1 = .ok s.handles.length ∧
    (hmake w vfs true s).2.handles.length = grownSize s.handles.length ∧
    (∀ h : Int, ¬ badCheck s h →
      ¬ badCheck (hmake w vfs true s).2 h ∧
      (slotAt (hmake w vfs true s).2 h.toNat).vfs = (slotAt s h.toNat).vfs) ∧
    (∀ i, s.handles.length < i → i < grownSize s.handles.length - 1 →
      (slotAt (hmake w vfs true s).2 i).next = (i : Int) + 1) ∧
    (s.handles.length < grownSize s.handles.length - 1 →
      (slotAt (hmake w vfs true s).2 (grownSize s.handles.length - 1)).next = -1) ∧
    (hmake w vfs true s).2.unused =
      (if s.handles.length = grownSize s.handles.length - 1
        then -1 else (s.handles.length : Int) + 1) := by
  obtain ⟨h1, h2, h3, h4, h5, h6, h7, _, _, _, _⟩ :=
    hmake_grow_spec w vfs s s.handles.length (grownSize s.handles.length)
      hv hnb hu rfl rfl
  refine ⟨rfl, h1, h2, ?_, h5, h6, h7⟩
  intro h hh
  obtain ⟨hge, hlt, hn2⟩ := (not_badCheck_iff s h).mp hh
  have hlt' : h.toNat < s.handles.length := by omega
  have hpres := h3 h.toNat hlt'
  constructor
  · rw [not_badCheck_iff]
    refine ⟨hge, ?_, by rw [hpres]; exact hn2⟩
    rw [h2]
    have := grownSize_gt s.handles.length
    omega
  · rw [hpres]

/-- Witness for C5 at the empty initial state (capacity 0, free list empty):
the first allocation grows the table to 256 slots. -/
theorem grow_doubles_and_preserves_witness :
    initState.unused = -1 ∧
    ((hmake wEx 1 true initState).1 = .ok 0 ∧
     (hmake wEx 1 true initState).2.handles.length = 256 ∧
     (hmake wEx 1 true initState).2.unused = 1) := by
  have hmain := grow_doubles_and_preserves wEx 1 initState (by decide) rfl rfl
  refine ⟨rfl, hmain.2.1, ?_, ?_⟩
  · rw [hmain.2.2.1]; rfl
  · rw [hmain.2.2.2.2.2.2]; rfl

/-- C8: every failing operation leaves the state exactly as it was: an
`hmake` that fails (`EINVAL`, `ECANCELED`, `ENOMEM`), an `hdup` that fails
(`EBADF` or any of `hmake`'s errors), an `hquery` that fails (`EBADF`) and
an `hclose` that fails (`EBADF`) all return the input state unchanged, so no
partially-initialized slot is ever reachable. -/
theorem error_leaves_state_unchanged (w : World) (vfs : Nat) (memOk : Bool)
    (s : HState) (h : Int) (ty : Nat) :
    (∀ e : Err, (hmake w vfs memOk s).1 = .error e →
      (hmake w vfs memOk s).2 = s) ∧
    (∀ e : Err, (hdup w h memOk s).1 = .error e →
      (hdup w h memOk s).2 = s) ∧
    (∀ e : Err, (hquery w h ty s).1 = .error e →
      (hquery w h ty s).2 = s) ∧
    (∀ e : Err, (hclose h s).1 = .error e → (hclose h s).2 = s) := by
  refine ⟨hmake_error_state w vfs memOk s, ?_, ?_, ?_⟩
  · intro e he
    by_cases hv : badCheck s h
    · simp [hdup, if_pos hv]
    · simp only [hdup, if_neg hv] at he ⊢
      rcases hmk : hmake w (slotAt s h.toNat).vfs memOk s with ⟨r, s1⟩
      rw [hmk] at he
      cases r with
      | error e1 =>
        have hst := hmake_error_state w (slotAt s h.toNat).vfs memOk s e1
          (by rw [hmk])
        rw [hmk] at hst
        exact hst
      | ok res => exact Except.noConfusion he
  · intro e he
    by_cases hv : badCheck s h
    · simp [hquery, if_pos hv]
    · exact absurd he (hquery_not_error w s h ty hv e)
  · intro e he
    by_cases hv : badCheck s h
    · simp [hclose, if_pos hv]
    · rw [hclose_ok s h hv] at he; exact absurd he (by simp)

/-- Witness for C8: a failing `hmake` (null capability table), a failing
`hdup` and a failing `hclose` (stale handle), and a failing `hmake` during
shutdown, all leave the concrete state `sW` unchanged. -/
theorem error_leaves_state_unchanged_witness :
    (hmake wEx 0 true sW).1 = .error .EINVAL ∧
    (hmake wEx 0 true sW).2 = sW ∧
    (hdup wEx 3 true sW).1 = .error .EBADF ∧
    (hdup wEx 3 true sW).2 = sW ∧
    (hclose 3 sW).1 = .error .EBADF ∧
    (hclose 3 sW).2 = sW :=
  ⟨rfl,
   (error_leaves_state_unchanged wEx 0 true sW 3 0).1 .EINVAL rfl,
   rfl,
   (error_leaves_state_unchanged wEx 0 true sW 3 0).2.1 .EBADF rfl,
   rfl,
   (error_leaves_state_unchanged wEx 0 true sW 3 0).2.2.2 .EBADF rfl⟩

/-- C2 (amended): given `n` distinct live handles that all alias capability
table `A`, whose shared reference count is `n`, closing them one after the
other succeeds every time; each of the first `n - 1` closes decrements the
shared count by one (after `i < n` closes it is `n - i`) and does not invoke
the underlying `close()`; the `n`-th close runs with reference count 1,
invokes the underlying `close()` exactly once, and leaves the (now dead)
count field untouched at 1. -/
theorem close_sequence_invokes_close_once :
    ∀ (A : Nat) (hs : List Int) (s : HState),
      hs.Nodup →
      (∀ h ∈ hs, ¬ badCheck s h ∧ (slotAt s h.toNat).vfs = A) →
      s.ref A = (hs.length : Int) →
      ∀ i, i ≤ hs.length →
        (closeSeq (hs.take i) s).1 = List.replicate i (Except.ok ()) ∧
        (closeSeq (hs.take i) s).2.closedLog =
          (if i = hs.length ∧ 0 < i
            then s.closedLog ++ [(A, true)] else s.closedLog) ∧
        (i < hs.length →
          (closeSeq (hs.take i) s).2.ref A = (hs.length : Int) - (i : Int)) ∧
        (i = hs.length ∧ 0 < i → (closeSeq (hs.take i) s).2.ref A = 1) := by
  intro A hs
  induction hs with
  | nil =>
    intro s _ _ hn i hi
    have hi0 : i = 0 := by simpa using hi
    subst hi0
    simp [closeSeq]
  | cons h t IH =>
    intro s hnd hall hn i hi
    cases i with
    | zero =>
      refine ⟨rfl, by simp [closeSeq], ?_, by simp⟩
      intro _
      simp only [List.take_zero, closeSeq, hn]
      simp
    | succ j =>
      obtain ⟨hvh, hAh⟩ := hall h (List.mem_cons_self h t)
      by_cases ht : t = []
      · subst ht
        have hj : j = 0 := by
          simp at hi; omega
        subst hj
        have hn1 : s.ref A = 1 := by simpa using hn
        have hr : ¬ s.ref (slotAt s h.toNat).vfs > 1 := by
          rw [hAh, hn1]; omega
        have hcl := hclose_eq_last s h hvh hr
        rw [hAh] at hcl
        simp only [List.take_succ_cons, List.take_nil, closeSeq, hcl]
        refine ⟨rfl, by simp, by omega, ?_⟩
        intro _
        exact hn1
      · have hlen : 0 < t.length := List.length_pos.mpr ht
        have hr : s.ref (slotAt s h.toNat).vfs > 1 := by
          rw [hAh, hn]; simp; omega
        have hcl := hclose_eq_dec s h hvh hr
        rw [hAh] at hcl
        have hstep : closeSeq ((h :: t).take (j + 1)) s =
            ((Except.ok ()) :: (closeSeq (t.take j) ((hclose h s).2)).1,
             (closeSeq (t.take j) ((hclose h s).2)).2) := by
          simp only [List.take_succ_cons, closeSeq, hcl]
        have hall' : ∀ h' ∈ t,
            ¬ badCheck ((hclose h s).2) h' ∧
            (slotAt ((hclose h s).2) h'.toNat).vfs = A := by
          intro h' hm
          rw [hcl]
          exact hall h' (List.mem_cons_of_mem h hm)
        have hn' : ((hclose h s).2).ref A = (t.length : Int) := by
          rw [hcl]
          show (if A = A then s.ref A - 1 else s.ref A) = _
          rw [if_pos rfl, hn]
          simp
        have hlog' : ((hclose h s).2).closedLog = s.closedLog := by rw [hcl]
        obtain ⟨r1, r2, r3, r4⟩ :=
          IH ((hclose h s).2) hnd.of_cons hall' hn' j (by simp at hi; omega)
        rw [hstep]
        refine ⟨?_, ?_, ?_, ?_⟩
        · rw [r1]; rfl
        · rw [r2, hlog']
          by_cases hj : j = t.length
          · rw [if_pos ⟨hj, by omega⟩, if_pos ⟨by simp [hj], by omega⟩]
          · rw [if_neg (fun hc => hj hc.1),
              if_neg (fun hc => hj (by simpa using hc.1))]
        · intro hlt2
          have hjt : j < t.length := by simp at hlt2; omega
          rw [r3 hjt]
          simp
        · intro hc
          have hjt : j = t.length := by simpa using hc.1
          exact r4 ⟨hjt, by omega⟩

set_option maxRecDepth 40000

/-- Witness for C2 at the concrete state `sPair` (handles 0 and 1 sharing
capability table 1 with reference count 2): both closes succeed, the close
log gains exactly one entry after the second close, and after the first
close the count is 2 - 1 = 1. -/
theorem close_sequence_invokes_close_once_witness :
    ([0, 1] : List Int).Nodup ∧
    sPair.ref 1 = ((([0, 1] : List Int).length : Nat) : Int) ∧
    (closeSeq (([0, 1] : List Int).take 2) sPair).1 =
      List.replicate 2 (Except.ok ()) ∧
    (closeSeq (([0, 1] : List Int).take 2) sPair).2.closedLog =
      (if 2 = ([0, 1] : List Int).length ∧ 0 < 2
        then sPair.closedLog ++ [(1, true)] else sPair.closedLog) ∧
    (1 < ([0, 1] : List Int).length →
      (closeSeq (([0, 1] : List Int).take 1) sPair).2.ref 1 =
        ((([0, 1] : List Int).length : Nat) : Int) - (1 : Int)) :=
  ⟨by decide, rfl,
   (close_sequence_invokes_close_once 1 [0, 1] sPair (by decide) (by decide)
     rfl 2 (by decide)).1,
   (close_sequence_invokes_close_once 1 [0, 1] sPair (by decide) (by decide)
     rfl 2 (by decide)).2.1,
   (close_sequence_invokes_close_once 1 [0, 1] sPair (by decide) (by decide)
     rfl 1 (by decide)).2.2.1⟩

/-- C2, counterexample to the claim as stated: the final successful `hclose`
(the one that runs with shared reference count 1) does not decrement the
count — the decrement statement is only on the `refcount > 1` branch — so
"each successful close decrements the shared count by one" fails at this
input: after `hmake` (count 1) and one `hclose`, the count field still
holds 1, not 0, while the underlying `close()` was invoked (once). -/
theorem close_last_does_not_decrement :
    sA.ref 1 = 1 ∧
    (hclose 0 sA).1 = .ok () ∧
    (hclose 0 sA).2.closedLog = [(1, true)] ∧
    (hclose 0 sA).2.ref 1 = 1 ∧
    (hclose 0 sA).2.ref 1 ≠ sA.ref 1 - 1 :=
  ⟨rfl, rfl, rfl, rfl, by decide⟩

/-- C1: evaluation of the code at the failing input.  After `hmake` (handle
0), `hdup` (handle 1, shared reference count 2), `hclose 0` succeeds — yet
handle 0 is NOT invalidated: the `refcount > 1` branch of `hclose` returns
without freeing the slot, so a subsequent `hquery`, `hdup` and even a second
`hclose` on handle 0 all succeed instead of failing with `EBADF`. -/
theorem close_on_duplicate_leaves_handle_open :
    (hmake wEx 1 true initState).1 = .ok 0 ∧
    (hdup wEx 0 true sA).1 = .ok 1 ∧
    (hclose 0 sB).1 = .ok () ∧
    ¬ badCheck sC 0 ∧
    (hquery wEx 0 7 sC).1 = .ok (some 42) ∧
    (hdup wEx 0 true sC).1 = .ok 2 ∧
    (hclose 0 sC).1 = .ok () :=
  ⟨rfl, rfl, rfl, by decide, rfl, rfl, rfl⟩

/-- C3: evaluation of the code at the failing input.  The invariant
"refcount of a capability table equals the number of in-use slots pointing
at it" holds after `hmake` (1 = 1) and after `hdup` (2 = 2) but is broken by
`hclose` of one duplicate: the slot is left in use, so two in-use slots
still point at capability table 1 while its reference count is 1. -/
theorem refcount_alias_invariant_broken_by_close :
    sA.ref 1 = (aliasCount sA 1 : Int) ∧
    sB.ref 1 = (aliasCount sB 1 : Int) ∧
    (hclose 0 sB).1 = .ok () ∧
    sC.ref 1 = 1 ∧
    aliasCount sC 1 = 2 ∧
    sC.ref 1 ≠ (aliasCount sC 1 : Int) :=
  ⟨by decide, by decide, rfl, rfl, by decide, by decide⟩

end HandleTable
